import Mathlib

/-!
Shallow embedding of the GlockAnalyse decision core, translated from
`src/stock_tools/db_manager.py` (`check_predictions`),
`src/stock_tools/stock_app.py` (`run_strategy_backtest` and the inline
signal-scoring block, which `src/stock_tools/advanced_analysis.py`
duplicates verbatim).

Python floats are modelled as rationals (`ℚ`); a pandas cell that may hold
`NaN` (an indicator column during its warm-up window) is modelled as
`Option ℚ`, with `none` for `NaN`.  Comparisons against `NaN` are false in
Python, which `gtNaN`/`ltNaN` reproduce.  Python `int()` truncation toward
zero is `pyInt`.
-/

/-- Lifecycle states of a prediction row (`predictions.status` column). -/
inductive PStatus
  | PENDING
  | CORRECT
  | INCORRECT
  deriving DecidableEq, Repr

/-- One row of the `predictions` table, the fields `check_predictions` reads. -/
structure Prediction where
  id : ℕ
  symbol : String
  stock_name : String
  prediction_type : String
  initial_price : ℚ
  status : PStatus
  deriving DecidableEq, Repr

/-- Outcome pair `(is_correct, is_wrong)` computed by the `if/elif` chain on
`prediction_type` in `check_predictions` (db_manager.py lines 217-229).
The comparisons are strict, exactly as in the source. -/
def checkOutcome (p_type : String) (curr_price init_price : ℚ) : Bool × Bool :=
  if p_type = "UP" then
    if curr_price > init_price * (101 / 100) then (true, false)
    else if curr_price < init_price * (98 / 100) then (false, true)
    else (false, false)
  else if p_type = "DOWN" then
    if curr_price < init_price * (99 / 100) then (true, false)
    else if curr_price > init_price * (102 / 100) then (false, true)
    else (false, false)
  else (false, false)

/-- Body of the per-prediction loop in `check_predictions`: skip symbols
absent from `current_prices`; otherwise update the row's status and emit the
notification message. -/
def checkOne (current_prices : List (String × ℚ)) (p : Prediction) :
    Prediction × List String :=
  match current_prices.lookup p.symbol with
  | none => (p, [])
  | some curr_price =>
    let oc := checkOutcome p.prediction_type curr_price p.initial_price
    if oc.1 then
      ({ p with status := PStatus.CORRECT },
       ["🎉 恭喜你！你对 " ++ p.stock_name ++ " (" ++ p.symbol ++
        ") 的看涨预测正确！该股票涨势正盛！"])
    else if oc.2 then
      ({ p with status := PStatus.INCORRECT },
       ["💔 很遗憾，你对 " ++ p.stock_name ++ " (" ++ p.symbol ++
        ") 的预测偏差较大。"])
    else (p, [])

/-- `check_predictions(user_id, current_prices)` from db_manager.py: the SQL
query selects only the rows with `status = 'PENDING'`, so rows in any other
status are returned unchanged; pending rows go through `checkOne`.  Returns
the updated rows together with the collected messages. -/
def check_predictions : List Prediction → List (String × ℚ) →
    List Prediction × List String
  | [], _ => ([], [])
  | p :: rest, current_prices =>
    let step := if p.status = PStatus.PENDING then checkOne current_prices p
                else (p, [])
    let tail := check_predictions rest current_prices
    (step.1 :: tail.1, step.2 ++ tail.2)

/-- Modelled from the spec (amended to the source's strict thresholds): the
per-prediction outcome rule of §4.4, written independently of the loop shape
of `check_predictions` for the refinement theorem. -/
def specUpdatePrediction (current_prices : List (String × ℚ)) (p : Prediction) :
    Prediction :=
  if p.status = PStatus.PENDING then
    match current_prices.lookup p.symbol with
    | none => p
    | some curr =>
      if p.prediction_type = "UP" then
        if curr > p.initial_price * (101 / 100) then
          { p with status := PStatus.CORRECT }
        else if curr < p.initial_price * (98 / 100) then
          { p with status := PStatus.INCORRECT }
        else p
      else if p.prediction_type = "DOWN" then
        if curr < p.initial_price * (99 / 100) then
          { p with status := PStatus.CORRECT }
        else if curr > p.initial_price * (102 / 100) then
          { p with status := PStatus.INCORRECT }
        else p
      else p
  else p

/-- One row of the backtest dataframe: the close price plus the three
indicator columns `run_strategy_backtest` reads (`BBU`, `BBM`, `MACD`),
each possibly `NaN`. -/
structure Bar where
  date : ℤ
  Close : ℚ
  BBU : Option ℚ
  BBM : Option ℚ
  MACD : Option ℚ
  deriving DecidableEq, Repr

/-- Trade direction recorded in the trade log (`操作` column). -/
inductive TradeAction
  | Buy
  | Sell
  deriving DecidableEq, Repr

/-- One entry appended to `trade_log`. -/
structure Trade where
  date : ℤ
  action : TradeAction
  price : ℚ
  quantity : ℤ
  deriving DecidableEq, Repr

/-- Running state of `run_strategy_backtest`: the `cash` and `position`
scalars plus the four accumulator lists. -/
structure BTState where
  cash : ℚ
  position : ℤ
  trade_log : List Trade
  equity_curve : List ℚ
  buy_signals : List (Option ℚ)
  sell_signals : List (Option ℚ)
  deriving DecidableEq, Repr

/-- Hard-coded commission of `run_strategy_backtest` (0.0003). -/
def commission_rate : ℚ := 3 / 10000

/-- Python comparison `a > b` where either side may be `NaN`: any comparison
with `NaN` is false. -/
def gtNaN : Option ℚ → Option ℚ → Bool
  | some a, some b => decide (b < a)
  | _, _ => false

/-- Python comparison `a < b` where either side may be `NaN`. -/
def ltNaN : Option ℚ → Option ℚ → Bool
  | some a, some b => decide (a < b)
  | _, _ => false

/-- Python `int()` applied to a rational: truncation toward zero. -/
def pyInt (q : ℚ) : ℤ := if 0 ≤ q then ⌊q⌋ else -⌊-q⌋

/-- Fall-through of a loop iteration when no trade fires: only the equity
point `cash + position*price` and the `NaN` signal markers are appended. -/
def holdStep (st : BTState) (price : ℚ) : BTState :=
  { st with
    equity_curve := st.equity_curve ++ [st.cash + (st.position : ℚ) * price],
    buy_signals := st.buy_signals ++ [none],
    sell_signals := st.sell_signals ++ [none] }

/-- One iteration of the `for i in range(len(df))` loop of
`run_strategy_backtest` (stock_app.py lines 217-267): warm-up bars
(`i < 20`) append cash-only equity; otherwise the FLAT branch may buy
`int(cash/price/100)*100` shares when `price > BBU and MACD > 0`, and the
LONG branch sells everything when `price < BBM`. -/
def stepBar (st : BTState) (i : ℕ) (bar : Bar) : BTState :=
  let price := bar.Close
  if i < 20 then
    { st with
      equity_curve := st.equity_curve ++ [st.cash],
      buy_signals := st.buy_signals ++ [none],
      sell_signals := st.sell_signals ++ [none] }
  else if st.position = 0 then
    if gtNaN (some price) bar.BBU && gtNaN bar.MACD (some 0) then
      let shares : ℤ := pyInt (st.cash / price / 100) * 100
      if 0 < shares then
        let cost : ℚ := (shares : ℚ) * price
        let fee : ℚ := cost * commission_rate
        let newCash : ℚ := st.cash - (cost + fee)
        { cash := newCash,
          position := shares,
          trade_log := st.trade_log ++ [⟨bar.date, TradeAction.Buy, price, shares⟩],
          equity_curve := st.equity_curve ++ [newCash + (shares : ℚ) * price],
          buy_signals := st.buy_signals ++ [some (price * (98 / 100))],
          sell_signals := st.sell_signals ++ [none] }
      else holdStep st price
    else holdStep st price
  else if 0 < st.position then
    if ltNaN (some price) bar.BBM then
      let revenue : ℚ := (st.position : ℚ) * price
      let fee : ℚ := revenue * commission_rate
      let newCash : ℚ := st.cash + (revenue - fee)
      { cash := newCash,
        position := 0,
        trade_log := st.trade_log ++ [⟨bar.date, TradeAction.Sell, price, st.position⟩],
        equity_curve := st.equity_curve ++ [newCash],
        buy_signals := st.buy_signals ++ [none],
        sell_signals := st.sell_signals ++ [some (price * (102 / 100))] }
    else holdStep st price
  else holdStep st price

/-- The loop of `run_strategy_backtest`, carrying the bar index. -/
def runFrom : ℕ → List Bar → BTState → BTState
  | _, [], st => st
  | i, b :: rest, st => runFrom (i + 1) rest (stepBar st i b)

/-- Initial state: `cash = initial_capital`, `position = 0`, empty logs. -/
def initState (initial_capital : ℚ) : BTState :=
  ⟨initial_capital, 0, [], [], [], []⟩

/-- `run_strategy_backtest(df, initial_capital)`: the full bar loop. -/
def run_strategy_backtest (df : List Bar) (initial_capital : ℚ) : BTState :=
  runFrom 0 df (initState initial_capital)

/-- The `total_return` computed after the loop:
`(equity_curve[-1] - initial_capital) / initial_capital * 100`.
`none` models the `IndexError` Python raises on an empty list. -/
def total_return (df : List Bar) (initial_capital : ℚ) : Option ℚ :=
  ((run_strategy_backtest df initial_capital).equity_curve.getLast?).map
    (fun e => (e - initial_capital) / initial_capital * 100)

/-- State trace of the loop: the state before each bar and the final state. -/
def traceFrom : ℕ → List Bar → BTState → List BTState
  | _, [], st => [st]
  | i, b :: rest, st => st :: traceFrom (i + 1) rest (stepBar st i b)

/-- All states visited by `run_strategy_backtest df initial_capital`. -/
def btTrace (df : List Bar) (initial_capital : ℚ) : List BTState :=
  traceFrom 0 df (initState initial_capital)

/-- The last row of the indicator dataframe, the eight cells the inline
scoring block of stock_app.py (lines 836-850) reads; any may be `NaN`. -/
structure LatestBar where
  Close : Option ℚ
  BBM : Option ℚ
  BBU : Option ℚ
  K : Option ℚ
  D : Option ℚ
  J : Option ℚ
  MACD : Option ℚ
  MACD_signal : Option ℚ
  deriving DecidableEq, Repr

/-- Verdict band chosen from the score (`score >= 3` strong, `score <= 1`
weak, otherwise neutral). -/
inductive Verdict
  | STRONG
  | NEUTRAL
  | WEAK
  deriving DecidableEq, Repr

/-- The inline scoring block of the detailed-analysis page (stock_app.py
lines 834-857, duplicated in advanced_analysis.print_report): four fixed
rules in order, then the verdict band. -/
def score_signal (latest : LatestBar) : ℤ × List String × Verdict :=
  let score : ℤ := 0
  let reasons : List String := []
  let r1 :=
    if gtNaN latest.Close latest.BBM then
      (score + 1, reasons ++ ["股价位于布林中轨上方 (强势)"])
    else (score, reasons)
  let r2 :=
    if gtNaN latest.Close latest.BBU then
      (r1.1 + 1, r1.2 ++ ["股价突破布林上轨 (极强/可能超买)"])
    else r1
  let r3 :=
    if gtNaN latest.K latest.D && ltNaN latest.K (some 80) then
      (r2.1 + 1, r2.2 ++ ["KDJ 金叉且未钝化"])
    else if gtNaN latest.J (some 100) then
      (r2.1 - 1, r2.2 ++ ["KDJ J值过高 (超买风险)"])
    else r2
  let r4 :=
    if gtNaN latest.MACD latest.MACD_signal then
      (r3.1 + 1, r3.2 ++ ["MACD 处于多头状态"])
    else r3
  (r4.1, r4.2,
   if 3 ≤ r4.1 then Verdict.STRONG
   else if r4.1 ≤ 1 then Verdict.WEAK
   else Verdict.NEUTRAL)

/-- Acceptance automaton for the trade-log shape: alternating actions
starting with a buy, every sell liquidating exactly the preceding buy's
quantity. -/
inductive LogSt
  | flat
  | long (q : ℤ)
  | bad
  deriving DecidableEq, Repr

/-- Transition of the trade-log automaton. -/
def logStep : LogSt → Trade → LogSt
  | LogSt.flat, t => if t.action = TradeAction.Buy then LogSt.long t.quantity else LogSt.bad
  | LogSt.long q, t =>
      if t.action = TradeAction.Sell ∧ t.quantity = q then LogSt.flat else LogSt.bad
  | LogSt.bad, _ => LogSt.bad

/-- Run the trade-log automaton from the FLAT start state. -/
def logRun (l : List Trade) : LogSt := l.foldl logStep LogSt.flat

/-! Helper lemmas. -/

theorem gtNaN_some_iff (x : ℚ) (o : Option ℚ) :
    gtNaN (some x) o = true ↔ ∃ u, o = some u ∧ u < x := by
  cases o <;> simp [gtNaN]

theorem gtNaN_zero_iff (o : Option ℚ) :
    gtNaN o (some 0) = true ↔ ∃ m, o = some m ∧ 0 < m := by
  cases o <;> simp [gtNaN]

theorem ltNaN_some_iff (x : ℚ) (o : Option ℚ) :
    ltNaN (some x) o = true ↔ ∃ u, o = some u ∧ x < u := by
  cases o <;> simp [ltNaN]

theorem pyInt_of_nonneg {q : ℚ} (h : 0 ≤ q) : pyInt q = ⌊q⌋ := by
  simp [pyInt, h]

theorem pyInt_nonpos {q : ℚ} (h : q ≤ 0) : pyInt q ≤ 0 := by
  unfold pyInt
  split_ifs with h0
  · have hq : q = 0 := le_antisymm h h0
    simp [hq]
  · have h1 : (0 : ℚ) ≤ -q := by linarith
    have h2 : 0 ≤ ⌊-q⌋ := Int.floor_nonneg.mpr h1
    omega

theorem pyInt_cast_le_of_pos {q : ℚ} (h : 0 < pyInt q) : (pyInt q : ℚ) ≤ q := by
  have h0 : 0 ≤ q := by
    by_contra hneg
    push_neg at hneg
    have := pyInt_nonpos (le_of_lt hneg)
    omega
  rw [pyInt_of_nonneg h0]
  exact Int.floor_le q

theorem shares_cost_le (c p : ℚ) (hp : 0 < p) (hs : 0 < pyInt (c / p / 100) * 100) :
    ((pyInt (c / p / 100) * 100 : ℤ) : ℚ) * p ≤ c := by
  have hq : 0 < pyInt (c / p / 100) := by omega
  have hle : (pyInt (c / p / 100) : ℚ) ≤ c / p / 100 := pyInt_cast_le_of_pos hq
  have h1 : ((pyInt (c / p / 100) : ℚ) * 100) * p ≤ ((c / p / 100) * 100) * p := by
    apply mul_le_mul_of_nonneg_right _ (le_of_lt hp)
    linarith
  have h2 : ((c / p / 100) * 100) * p = c := by
    field_simp
    ring
  push_cast
  linarith

theorem checkOne_eq_spec (prices : List (String × ℚ)) (p : Prediction)
    (hp : p.status = PStatus.PENDING) :
    (checkOne prices p).1 = specUpdatePrediction prices p := by
  unfold checkOne specUpdatePrediction checkOutcome
  rw [if_pos hp]
  cases h : prices.lookup p.symbol with
  | none => simp
  | some curr =>
    by_cases hU : p.prediction_type = "UP"
    · simp only [hU, if_pos rfl]
      split_ifs <;> simp_all
    · by_cases hD : p.prediction_type = "DOWN"
      · simp only [hU, hD]
        split_ifs <;> simp_all
      · simp [hU, hD]

/-- Claim C1 (amended): the prediction outcome evaluator leaves non-PENDING
rows and rows whose symbol is absent from the price map untouched, and for a
considered PENDING prediction applies the source's STRICT threshold rule
(UP: CORRECT iff current > initial*1.01, INCORRECT iff current <
initial*0.98; DOWN: CORRECT iff current < initial*0.99, INCORRECT iff
current > initial*1.02; otherwise the row stays PENDING), stated as equality
with the independently written rule `specUpdatePrediction`. -/
theorem check_predictions_strict_thresholds (preds : List Prediction)
    (prices : List (String × ℚ)) :
    (check_predictions preds prices).1 = preds.map (specUpdatePrediction prices) := by
  induction preds with
  | nil => rfl
  | cons p rest ih =>
    unfold check_predictions
    by_cases hp : p.status = PStatus.PENDING
    · simp [hp, ih, checkOne_eq_spec prices p hp]
    · simp only [if_neg hp, List.map_cons, ih]
      have : specUpdatePrediction prices p = p := by
        unfold specUpdatePrediction
        rw [if_neg hp]
      rw [this]

/-- Claim C1 counterexample: an UP prediction with initial price 100 and a
current price of exactly 101 = 100*1.01 sits exactly at the claimed
inclusive CORRECT threshold, yet `check_predictions` leaves it PENDING —
the source comparisons are strict, not inclusive. -/
theorem check_predictions_boundary_pending_cex :
    (check_predictions [⟨1, "600000", "Foo", "UP", 100, PStatus.PENDING⟩]
        [("600000", 101)]).1 =
      [⟨1, "600000", "Foo", "UP", 100, PStatus.PENDING⟩] := by
  norm_num [check_predictions, checkOne, checkOutcome, List.lookup]

theorem score_signal_range (latest : LatestBar) :
    -1 ≤ (score_signal latest).1 ∧ (score_signal latest).1 ≤ 4 := by
  unfold score_signal
  cases h1 : gtNaN latest.Close latest.BBM <;>
    cases h2 : gtNaN latest.Close latest.BBU <;>
      cases h3 : gtNaN latest.K latest.D && ltNaN latest.K (some 80) <;>
        cases h4 : gtNaN latest.J (some 100) <;>
          cases h5 : gtNaN latest.MACD latest.MACD_signal <;>
            simp [h1, h2, h3, h4, h5]

/-- Claim C3 (amended): the signal scorer never fails on undefined
indicators — there is no InsufficientDataError in the source.  Comparisons
against an undefined (NaN) cell are false, so a latest bar whose indicator
cells are all undefined silently scores 0 with an empty reason list and the
WEAK verdict, whatever the close value; and for every latest bar the scorer
returns a score in -1..4. -/
theorem score_signal_total_on_missing :
    (∀ c : Option ℚ,
        score_signal ⟨c, none, none, none, none, none, none, none⟩ =
          (0, [], Verdict.WEAK)) ∧
    (∀ latest : LatestBar,
        -1 ≤ (score_signal latest).1 ∧ (score_signal latest).1 ≤ 4) := by
  constructor
  · intro c
    cases c <;> rfl
  · exact score_signal_range

/-- Claim C3 counterexample: a latest bar with close 100 and every required
indicator undefined makes the scorer return score 0 / verdict WEAK instead
of failing with an InsufficientDataError. -/
theorem score_signal_missing_indicators_cex :
    score_signal ⟨some 100, none, none, none, none, none, none, none⟩ =
      (0, [], Verdict.WEAK) := rfl

/-- Claim C6: on a latest bar with every required indicator defined, the
score equals the sum of the four fixed-order rule contributions (the KDJ
branch pair being mutually exclusive), lies in -1..4, and the verdict is
STRONG iff score ≥ 3, WEAK iff score ≤ 1, NEUTRAL otherwise; in particular
the bar (close 100 > mid 90, close < upper 105, K=60 > D=50 with K < 80,
MACD 1 < signal 2) scores 2 with verdict NEUTRAL. -/
theorem score_signal_rules_and_verdict (c bm bu k d j m ms : ℚ) :
    ((score_signal ⟨some c, some bm, some bu, some k, some d, some j, some m, some ms⟩).1 =
        (if bm < c then 1 else 0) + (if bu < c then 1 else 0) +
          (if d < k ∧ k < 80 then 1 else if 100 < j then -1 else 0) +
          (if ms < m then 1 else 0) ∧
      -1 ≤ (score_signal ⟨some c, some bm, some bu, some k, some d, some j, some m, some ms⟩).1 ∧
      (score_signal ⟨some c, some bm, some bu, some k, some d, some j, some m, some ms⟩).1 ≤ 4 ∧
      ((score_signal ⟨some c, some bm, some bu, some k, some d, some j, some m, some ms⟩).2.2 =
          Verdict.STRONG ↔
        3 ≤ (score_signal ⟨some c, some bm, some bu, some k, some d, some j, some m, some ms⟩).1) ∧
      ((score_signal ⟨some c, some bm, some bu, some k, some d, some j, some m, some ms⟩).2.2 =
          Verdict.WEAK ↔
        (score_signal ⟨some c, some bm, some bu, some k, some d, some j, some m, some ms⟩).1 ≤ 1) ∧
      ((score_signal ⟨some c, some bm, some bu, some k, some d, some j, some m, some ms⟩).2.2 =
          Verdict.NEUTRAL ↔
        1 < (score_signal ⟨some c, some bm, some bu, some k, some d, some j, some m, some ms⟩).1 ∧
          (score_signal ⟨some c, some bm, some bu, some k, some d, some j, some m, some ms⟩).1 < 3)) ∧
    (score_signal ⟨some 100, some 90, some 105, some 60, some 50, some 50, some 1, some 2⟩).1 = 2 ∧
    (score_signal ⟨some 100, some 90, some 105, some 60, some 50, some 50, some 1, some 2⟩).2.2 =
      Verdict.NEUTRAL := by
  refine ⟨?_, by norm_num [score_signal, gtNaN, ltNaN], by norm_num [score_signal, gtNaN, ltNaN]⟩
  by_cases h1 : bm < c <;> by_cases h2 : bu < c <;> by_cases h3 : d < k <;>
    by_cases h4 : k < 80 <;> by_cases h5 : 100 < j <;> by_cases h6 : ms < m <;>
      simp [score_signal, gtNaN, ltNaN, h1, h2, h3, h4, h5, h6]

theorem stepBar_pos_invariant (st : BTState) (i : ℕ) (bar : Bar)
    (h0 : 0 ≤ st.position) (h1 : (100 : ℤ) ∣ st.position) :
    0 ≤ (stepBar st i bar).position ∧ (100 : ℤ) ∣ (stepBar st i bar).position := by
  simp only [stepBar, holdStep]
  split_ifs with hi hflat hcond hsh hsell
  · exact ⟨h0, h1⟩
  · exact ⟨le_of_lt hsh, dvd_mul_left 100 _⟩
  · exact ⟨h0, h1⟩
  · exact ⟨h0, h1⟩
  · exact ⟨le_refl 0, dvd_zero 100⟩
  · exact ⟨h0, h1⟩
  · exact ⟨h0, h1⟩

theorem traceFrom_pos_invariant :
    ∀ (bars : List Bar) (i : ℕ) (st : BTState),
      0 ≤ st.position → (100 : ℤ) ∣ st.position →
      ∀ s ∈ traceFrom i bars st, 0 ≤ s.position ∧ (100 : ℤ) ∣ s.position := by
  intro bars
  induction bars with
  | nil =>
    intro i st h0 h1 s hs
    simp only [traceFrom, List.mem_singleton] at hs
    subst hs
    exact ⟨h0, h1⟩
  | cons b rest ih =>
    intro i st h0 h1 s hs
    simp only [traceFrom, List.mem_cons] at hs
    rcases hs with rfl | hs
    · exact ⟨h0, h1⟩
    · have h2 := stepBar_pos_invariant st i b h0 h1
      exact ih (i + 1) (stepBar st i b) h2.1 h2.2 s hs

/-- Claim C4 (amended): at every point of a run the position is a
non-negative multiple of the lot size 100; after a SELL settlement cash
never decreases; after a BUY settlement cash is bounded below by minus that
buy's commission fee — but it is NOT always ≥ 0, because the position size
`int(cash/price/100)*100` ignores the fee that is then charged on top. -/
theorem backtest_lot_alignment_and_cash_bounds :
    (∀ (df : List Bar) (initial_capital : ℚ),
      ∀ st ∈ btTrace df initial_capital,
        0 ≤ st.position ∧ (100 : ℤ) ∣ st.position) ∧
    (∀ (st : BTState) (i : ℕ) (bar : Bar) (t : Trade), 0 < bar.Close →
      (stepBar st i bar).trade_log = st.trade_log ++ [t] →
      (t.action = TradeAction.Buy →
        -((t.quantity : ℚ) * t.price * commission_rate) ≤ (stepBar st i bar).cash) ∧
      (t.action = TradeAction.Sell → st.cash ≤ (stepBar st i bar).cash)) := by
  constructor
  · intro df initial_capital st hst
    exact traceFrom_pos_invariant df 0 (initState initial_capital)
      (le_refl 0) (dvd_zero 100) st hst
  · intro st i bar t hp happ
    simp only [stepBar, holdStep] at happ ⊢
    split_ifs at happ ⊢ with hi hflat hcond hsh hsell hltn
    · simp at happ
    · have ht : (⟨bar.date, TradeAction.Buy, bar.Close,
          pyInt (st.cash / bar.Close / 100) * 100⟩ : Trade) = t := by
        have := List.append_cancel_left happ
        simpa using this
      subst ht
      constructor
      · intro _
        have hcost := shares_cost_le st.cash bar.Close hp hsh
        simp only [commission_rate] at *
        push_cast at *
        nlinarith [hcost]
      · intro hact
        simp at hact
    · simp at happ
    · simp at happ
    · have ht : (⟨bar.date, TradeAction.Sell, bar.Close, st.position⟩ : Trade) = t := by
        have := List.append_cancel_left happ
        simpa using this
      subst ht
      constructor
      · intro hact
        simp at hact
      · intro _
        have hpos : (0 : ℚ) ≤ (st.position : ℚ) := by exact_mod_cast le_of_lt hsell
        have hrev : (0 : ℚ) ≤ (st.position : ℚ) * bar.Close :=
          mul_nonneg hpos (le_of_lt hp)
        simp only [commission_rate]
        linarith
    · simp at happ
    · simp at happ

/-- Claim C4 counterexample: with 100000 cash and a breakout bar at price 1,
the buy sizing takes 100000 shares costing exactly the whole cash, then the
30.0 commission is charged on top, leaving cash = -30 < 0 immediately after
the BUY settlement (the buy is the last bar, so the final cash is the
post-settlement cash). -/
theorem backtest_negative_cash_after_buy_cex :
    (run_strategy_backtest
        (List.replicate 20 ⟨0, 100, none, none, none⟩ ++
          [⟨20, 1, some (1 / 2), some (1 / 2), some 1⟩]) 100000).trade_log =
      [⟨20, TradeAction.Buy, 1, 100000⟩] ∧
    (run_strategy_backtest
        (List.replicate 20 ⟨0, 100, none, none, none⟩ ++
          [⟨20, 1, some (1 / 2), some (1 / 2), some 1⟩]) 100000).cash < 0 := by
  norm_num [run_strategy_backtest, runFrom, stepBar, holdStep, initState, gtNaN, ltNaN,
    pyInt, commission_rate, List.replicate]

/-- Witness for claim C4's theorem: instantiating the settlement bound at a
concrete BUY that drives cash to exactly minus its fee. -/
theorem backtest_lot_alignment_and_cash_bounds_witness :
    -(((100000 : ℤ) : ℚ) * 1 * commission_rate) ≤
      (stepBar ⟨100000, 0, [], [], [], []⟩ 20 ⟨20, 1, some (1 / 2), some (1 / 2), some 1⟩).cash := by
  have h := (backtest_lot_alignment_and_cash_bounds.2
      ⟨100000, 0, [], [], [], []⟩ 20 ⟨20, 1, some (1 / 2), some (1 / 2), some 1⟩
      ⟨20, TradeAction.Buy, 1, 100000⟩ (by norm_num)
      (by norm_num [stepBar, holdStep, gtNaN, ltNaN, pyInt, commission_rate])).1 rfl
  simpa using h

theorem logRun_append (l : List Trade) (t : Trade) :
    logRun (l ++ [t]) = logStep (logRun l) t := by
  simp [logRun, List.foldl_append]

theorem stepBar_logSt (st : BTState) (i : ℕ) (bar : Bar)
    (h : st.position = 0 ∧ logRun st.trade_log = LogSt.flat ∨
         0 < st.position ∧ logRun st.trade_log = LogSt.long st.position) :
    (stepBar st i bar).position = 0 ∧ logRun (stepBar st i bar).trade_log = LogSt.flat ∨
    0 < (stepBar st i bar).position ∧
      logRun (stepBar st i bar).trade_log = LogSt.long (stepBar st i bar).position := by
  simp only [stepBar, holdStep]
  split_ifs with hi hflat hcond hsh hsell hltn
  · exact h
  · refine Or.inr ⟨hsh, ?_⟩
    rcases h with ⟨_, hlog⟩ | ⟨hpos, _⟩
    · rw [logRun_append, hlog]
      simp [logStep]
    · omega
  · exact h
  · exact h
  · refine Or.inl ⟨rfl, ?_⟩
    rcases h with ⟨hpos, _⟩ | ⟨_, hlog⟩
    · exact absurd hpos hflat
    · rw [logRun_append, hlog]
      simp [logStep]
  · exact h
  · exact h

theorem runFrom_logSt :
    ∀ (bars : List Bar) (i : ℕ) (st : BTState),
      (st.position = 0 ∧ logRun st.trade_log = LogSt.flat ∨
       0 < st.position ∧ logRun st.trade_log = LogSt.long st.position) →
      ((runFrom i bars st).position = 0 ∧
         logRun (runFrom i bars st).trade_log = LogSt.flat ∨
       0 < (runFrom i bars st).position ∧
         logRun (runFrom i bars st).trade_log = LogSt.long (runFrom i bars st).position) := by
  intro bars
  induction bars with
  | nil => intro i st h; exact h
  | cons b rest ih => intro i st h; exact ih (i + 1) (stepBar st i b) (stepBar_logSt st i b h)

/-- Claim C10: the trade log of every backtest run is accepted by the
automaton that starts FLAT, requires the first trade (if any) to be a BUY,
strictly alternates BUY and SELL, and requires every SELL's quantity to
equal the quantity of the immediately preceding BUY (full liquidation);
i.e. the automaton never reaches its reject state. -/
theorem trade_log_alternation (df : List Bar) (initial_capital : ℚ) :
    logRun (run_strategy_backtest df initial_capital).trade_log ≠ LogSt.bad := by
  have h := runFrom_logSt df 0 (initState initial_capital) (Or.inl ⟨rfl, rfl⟩)
  unfold run_strategy_backtest
  rcases h with ⟨_, hlog⟩ | ⟨_, hlog⟩ <;> rw [hlog] <;> simp

theorem runFrom_warmup :
    ∀ (bars : List Bar) (i : ℕ) (st : BTState), i + bars.length ≤ 20 →
      runFrom i bars st =
        { st with
          equity_curve := st.equity_curve ++ List.replicate bars.length st.cash,
          buy_signals := st.buy_signals ++ List.replicate bars.length none,
          sell_signals := st.sell_signals ++ List.replicate bars.length none } := by
  intro bars
  induction bars with
  | nil => intro i st _; simp [runFrom]
  | cons b rest ih =>
    intro i st hlen
    have hi : i < 20 := by simp at hlen; omega
    have hstep : stepBar st i b =
        { st with
          equity_curve := st.equity_curve ++ [st.cash],
          buy_signals := st.buy_signals ++ [none],
          sell_signals := st.sell_signals ++ [none] } := by
      simp [stepBar, hi]
    show runFrom (i + 1) rest (stepBar st i b) = _
    rw [hstep, ih (i + 1) _ (by simp at hlen ⊢; omega)]
    simp [List.replicate_succ, List.append_assoc]

theorem runFrom_insolvent :
    ∀ (bars : List Bar) (i : ℕ) (st : BTState),
      st.position = 0 → st.cash ≤ 0 → (∀ b ∈ bars, 0 < b.Close) →
      runFrom i bars st =
        { st with
          equity_curve := st.equity_curve ++ List.replicate bars.length st.cash,
          buy_signals := st.buy_signals ++ List.replicate bars.length none,
          sell_signals := st.sell_signals ++ List.replicate bars.length none } := by
  intro bars
  induction bars with
  | nil => intro i st _ _ _; simp [runFrom]
  | cons b rest ih =>
    intro i st hpos hcash hp
    have hb : 0 < b.Close := hp b (by simp)
    have hq : st.cash / b.Close / 100 ≤ 0 := by
      apply div_nonpos_of_nonpos_of_nonneg _ (by norm_num)
      exact div_nonpos_of_nonpos_of_nonneg hcash (le_of_lt hb)
    have hsh : ¬ (0 < pyInt (st.cash / b.Close / 100) * 100) := by
      have := pyInt_nonpos hq
      omega
    have hstep : stepBar st i b =
        { st with
          equity_curve := st.equity_curve ++ [st.cash],
          buy_signals := st.buy_signals ++ [none],
          sell_signals := st.sell_signals ++ [none] } := by
      simp [stepBar, holdStep, hpos, hsh]
    show runFrom (i + 1) rest (stepBar st i b) = _
    rw [hstep, ih (i + 1)
        { st with
          equity_curve := st.equity_curve ++ [st.cash],
          buy_signals := st.buy_signals ++ [none],
          sell_signals := st.sell_signals ++ [none] }
        hpos hcash (fun x hx => hp x (List.mem_cons_of_mem b hx))]
    simp [List.replicate_succ, List.append_assoc]

/-- Claim C7: on a non-empty frame with fewer than 20 (= warmup) bars and
positive initial capital, the backtest executes no trade and the equity
curve holds one point per bar, each equal to the initial capital. -/
theorem backtest_short_frame_no_trades (df : List Bar) (initial_capital : ℚ)
    (hne : df ≠ []) (hlen : df.length < 20) (hcap : 0 < initial_capital) :
    (run_strategy_backtest df initial_capital).trade_log = [] ∧
    (run_strategy_backtest df initial_capital).equity_curve =
      List.replicate df.length initial_capital := by
  unfold run_strategy_backtest
  rw [runFrom_warmup df 0 (initState initial_capital) (by omega)]
  simp [initState]

/-- Witness for claim C7's theorem at a concrete 2-bar frame with capital 7. -/
theorem backtest_short_frame_no_trades_witness :
    (run_strategy_backtest [⟨0, 5, none, none, none⟩, ⟨1, 6, none, none, none⟩] 7).trade_log = [] ∧
    (run_strategy_backtest [⟨0, 5, none, none, none⟩, ⟨1, 6, none, none, none⟩] 7).equity_curve =
      List.replicate
        ([⟨0, 5, none, none, none⟩, ⟨1, 6, none, none, none⟩] : List Bar).length 7 :=
  backtest_short_frame_no_trades _ 7 (by simp) (by simp) (by norm_num)

/-- Claim C2 (amended): `run_strategy_backtest` performs NO validation of
`initial_capital` — there is no ConfigError in the source.  With
`initial_capital ≤ 0` (and positive close prices) it silently proceeds
through every bar: the buy sizing can never reach a positive lot, so no
trade executes and every appended equity point equals the initial capital. -/
theorem backtest_nonpositive_capital_no_error (df : List Bar) (initial_capital : ℚ)
    (hcap : initial_capital ≤ 0) (hp : ∀ b ∈ df, 0 < b.Close) :
    (run_strategy_backtest df initial_capital).trade_log = [] ∧
    (run_strategy_backtest df initial_capital).equity_curve =
      List.replicate df.length initial_capital := by
  unfold run_strategy_backtest
  rw [runFrom_insolvent df 0 (initState initial_capital) rfl hcap hp]
  simp [initState]

/-- Witness for claim C2's theorem: a 21-bar frame (one bar past warm-up,
with a breakout-shaped bar) run with initial capital 0. -/
theorem backtest_nonpositive_capital_no_error_witness :
    (run_strategy_backtest
        (List.replicate 20 (⟨0, 100, none, none, none⟩ : Bar) ++
          [(⟨20, 1, some (1 / 2), some (1 / 2), some 1⟩ : Bar)]) 0).trade_log = [] ∧
    (run_strategy_backtest
        (List.replicate 20 (⟨0, 100, none, none, none⟩ : Bar) ++
          [(⟨20, 1, some (1 / 2), some (1 / 2), some 1⟩ : Bar)]) 0).equity_curve =
      List.replicate 21 0 := by
  have h := backtest_nonpositive_capital_no_error
      (List.replicate 20 (⟨0, 100, none, none, none⟩ : Bar) ++
        [(⟨20, 1, some (1 / 2), some (1 / 2), some 1⟩ : Bar)]) 0 (le_refl 0) ?_
  · simpa using h
  · intro b hb
    simp only [List.mem_append, List.mem_singleton] at hb
    rcases hb with hb | hb
    · rw [List.eq_of_mem_replicate hb]
      norm_num
    · rw [hb]
      norm_num

/-- Claim C2 counterexample: with `initial_capital = -5` the claim says the
run fails with a ConfigError before any bar is processed (no equity point
appended); instead the simulation runs and appends an equity point of -5
for the bar — it silently proceeds. -/
theorem backtest_nonpositive_capital_cex :
    (run_strategy_backtest [⟨0, 50, none, none, none⟩] (-5)).equity_curve = [-5] ∧
    (run_strategy_backtest [⟨0, 50, none, none, none⟩] (-5)).trade_log = [] := by
  norm_num [run_strategy_backtest, runFrom, stepBar, holdStep, initState]

theorem stepBar_equity_length (st : BTState) (i : ℕ) (bar : Bar) :
    (stepBar st i bar).equity_curve.length = st.equity_curve.length + 1 := by
  simp only [stepBar, holdStep]
  split_ifs <;> simp

theorem runFrom_equity_length :
    ∀ (bars : List Bar) (i : ℕ) (st : BTState),
      (runFrom i bars st).equity_curve.length = st.equity_curve.length + bars.length := by
  intro bars
  induction bars with
  | nil => intro i st; simp [runFrom]
  | cons b rest ih =>
    intro i st
    show (runFrom (i + 1) rest (stepBar st i b)).equity_curve.length = _
    rw [ih (i + 1) (stepBar st i b), stepBar_equity_length]
    simp
    omega

/-- Claim C8 (amended): there is no DataError and no input validation in
the source.  Every frame — whatever its timestamps, monotonic or not — is
processed to completion with exactly one equity point per bar; an empty
frame fails only afterwards, at the `equity_curve[-1]` access of the
total-return computation (an IndexError, modelled as `none`), not with a
DataError at construction. -/
theorem backtest_no_input_validation (df : List Bar) (initial_capital : ℚ) :
    (run_strategy_backtest df initial_capital).equity_curve.length = df.length ∧
    (df = [] → total_return df initial_capital = none) := by
  constructor
  · unfold run_strategy_backtest
    rw [runFrom_equity_length df 0 (initState initial_capital)]
    simp [initState]
  · intro hdf
    subst hdf
    rfl

/-- Witness for claim C8's theorem, at a concrete one-bar frame and at the
empty frame. -/
theorem backtest_no_input_validation_witness :
    (run_strategy_backtest [⟨0, 50, none, none, none⟩] 1000).equity_curve.length =
      ([⟨0, 50, none, none, none⟩] : List Bar).length ∧
    total_return [] 1000 = none :=
  ⟨(backtest_no_input_validation [⟨0, 50, none, none, none⟩] 1000).1,
   (backtest_no_input_validation [] 1000).2 rfl⟩

/-- Claim C8 counterexample: a two-bar frame whose timestamps strictly
DECREASE (10 then 3) is supposed to be rejected with a DataError, but the
backtest processes it normally: one equity point per bar, an empty trade
log, and a computed total return of 0. -/
theorem backtest_nonmonotonic_dates_cex :
    ([⟨10, 5, none, none, none⟩, ⟨3, 6, none, none, none⟩] : List Bar).map Bar.date = [10, 3] ∧
    (run_strategy_backtest [⟨10, 5, none, none, none⟩, ⟨3, 6, none, none, none⟩]
        1000).equity_curve = [1000, 1000] ∧
    (run_strategy_backtest [⟨10, 5, none, none, none⟩, ⟨3, 6, none, none, none⟩]
        1000).trade_log = [] ∧
    total_return [⟨10, 5, none, none, none⟩, ⟨3, 6, none, none, none⟩] 1000 = some 0 := by
  norm_num [run_strategy_backtest, total_return, runFrom, stepBar, holdStep, initState]

/-- Claim C9 (amended): at a bar past warm-up where an indicator read by
the ACTIVE rule is undefined — FLAT with BollingerUpper or MACD undefined,
or LONG with BollingerMid undefined — the simulator holds: cash, position
and trade log are unchanged and an equity point `cash + position*close` is
still appended, so the run continues (the embedding is total, matching the
source, which raises nothing on NaN cells).  The claim's stronger reading —
no trade at a bar where ANY of the three indicators is undefined — is
false: a BUY can still fire while only BollingerMid is undefined. -/
theorem step_undefined_indicator_holds (st : BTState) (i : ℕ) (bar : Bar)
    (hi : 20 ≤ i)
    (hund : st.position = 0 ∧ (bar.BBU = none ∨ bar.MACD = none) ∨
            0 < st.position ∧ bar.BBM = none) :
    (stepBar st i bar).cash = st.cash ∧
    (stepBar st i bar).position = st.position ∧
    (stepBar st i bar).trade_log = st.trade_log ∧
    (stepBar st i bar).equity_curve =
      st.equity_curve ++ [st.cash + (st.position : ℚ) * bar.Close] := by
  have hi20 : ¬ i < 20 := by omega
  rcases hund with ⟨hflat, hnan⟩ | ⟨hlong, hnan⟩
  · have hcond : (gtNaN (some bar.Close) bar.BBU && gtNaN bar.MACD (some 0)) = false := by
      rcases hnan with hnan | hnan <;> rw [hnan] <;> simp [gtNaN]
    simp [stepBar, holdStep, hi20, hflat, hcond]
  · have hflat : ¬ st.position = 0 := by omega
    have hcond : ltNaN (some bar.Close) bar.BBM = false := by
      rw [hnan]
      rfl
    simp [stepBar, holdStep, hi20, hflat, hlong, hcond]

/-- Witness for claim C9's theorem: a FLAT state at bar 20 whose
BollingerUpper cell is undefined holds and appends the equity point. -/
theorem step_undefined_indicator_holds_witness :
    (stepBar ⟨100, 0, [], [], [], []⟩ 20 ⟨0, 50, none, some 10, none⟩).cash = 100 ∧
    (stepBar ⟨100, 0, [], [], [], []⟩ 20 ⟨0, 50, none, some 10, none⟩).position = 0 ∧
    (stepBar ⟨100, 0, [], [], [], []⟩ 20 ⟨0, 50, none, some 10, none⟩).trade_log = [] ∧
    (stepBar ⟨100, 0, [], [], [], []⟩ 20 ⟨0, 50, none, some 10, none⟩).equity_curve =
      [] ++ [100 + ((0 : ℤ) : ℚ) * 50] :=
  step_undefined_indicator_holds ⟨100, 0, [], [], [], []⟩ 20 ⟨0, 50, none, some 10, none⟩
    (le_refl 20) (Or.inl ⟨rfl, Or.inl rfl⟩)

/-- Claim C9 counterexample: at bar 20 the BollingerMid cell is undefined
(a required indicator per the claim), yet a BUY of 900 shares fires because
the FLAT rule only reads BollingerUpper and MACD — contradicting "no BUY or
SELL fires at that bar". -/
theorem step_undefined_bbm_buy_fires_cex :
    ((List.replicate 20 (⟨0, 100, none, none, none⟩ : Bar) ++
        [(⟨20, 110, some 105, none, some 1⟩ : Bar)]).getLast?).map Bar.BBM =
      some none ∧
    (run_strategy_backtest
        (List.replicate 20 (⟨0, 100, none, none, none⟩ : Bar) ++
          [(⟨20, 110, some 105, none, some 1⟩ : Bar)]) 100000).trade_log =
      [⟨20, TradeAction.Buy, 110, 900⟩] := by
  constructor
  · rfl
  · norm_num [run_strategy_backtest, runFrom, stepBar, holdStep, initState, gtNaN, ltNaN,
      pyInt, commission_rate, List.replicate]

set_option maxHeartbeats 1600000 in
/-- Claim C5: while FLAT at bar i ≥ 20 (with non-negative cash and a
positive close), the BUY fires iff close > BollingerUpper and MACD > 0 and
the lot-floored size `floor(cash/close/100)*100` is positive; on fire the
position becomes that size, cash drops by size*close plus the fee
size*close*commission_rate, and a BUY trade is appended; if the condition
fails or the size is 0, nothing changes except the equity point.  The
25-bar scenario (bar 21: close 110 > upper 108, MACD 0.5, cash 100000)
produces exactly one BUY of 900 shares at bar 21 with fee 29.7. -/
theorem flat_to_long_transition_rule :
    (∀ (st : BTState) (i : ℕ) (bar : Bar),
      st.position = 0 → 20 ≤ i → 0 ≤ st.cash → 0 < bar.Close →
      ((((∃ u, bar.BBU = some u ∧ u < bar.Close) ∧ (∃ m, bar.MACD = some m ∧ 0 < m) ∧
          0 < ⌊st.cash / bar.Close / 100⌋ * 100) →
        (stepBar st i bar).position = ⌊st.cash / bar.Close / 100⌋ * 100 ∧
        (stepBar st i bar).cash =
          st.cash - (((⌊st.cash / bar.Close / 100⌋ * 100 : ℤ) : ℚ) * bar.Close +
            ((⌊st.cash / bar.Close / 100⌋ * 100 : ℤ) : ℚ) * bar.Close * commission_rate) ∧
        (stepBar st i bar).trade_log =
          st.trade_log ++ [⟨bar.date, TradeAction.Buy, bar.Close,
            ⌊st.cash / bar.Close / 100⌋ * 100⟩]) ∧
      ((¬((∃ u, bar.BBU = some u ∧ u < bar.Close) ∧ (∃ m, bar.MACD = some m ∧ 0 < m)) ∨
          ⌊st.cash / bar.Close / 100⌋ * 100 = 0) →
        (stepBar st i bar).position = 0 ∧
        (stepBar st i bar).cash = st.cash ∧
        (stepBar st i bar).trade_log = st.trade_log))) ∧
    (run_strategy_backtest
        (List.replicate 20 (⟨0, 100, none, none, none⟩ : Bar) ++
          [(⟨20, 100, some 105, some 90, some 0⟩ : Bar),
           (⟨21, 110, some 108, some 100, some (1 / 2)⟩ : Bar),
           (⟨22, 100, some 105, some 90, some 0⟩ : Bar),
           (⟨23, 100, some 105, some 90, some 0⟩ : Bar),
           (⟨24, 100, some 105, some 90, some 0⟩ : Bar)]) 100000).trade_log =
      [⟨21, TradeAction.Buy, 110, 900⟩] ∧
    (run_strategy_backtest
        (List.replicate 20 (⟨0, 100, none, none, none⟩ : Bar) ++
          [(⟨20, 100, some 105, some 90, some 0⟩ : Bar),
           (⟨21, 110, some 108, some 100, some (1 / 2)⟩ : Bar),
           (⟨22, 100, some 105, some 90, some 0⟩ : Bar),
           (⟨23, 100, some 105, some 90, some 0⟩ : Bar),
           (⟨24, 100, some 105, some 90, some 0⟩ : Bar)]) 100000).cash =
      100000 - (900 * 110 + 297 / 10) := by
  refine ⟨?_, ?_, ?_⟩
  · intro st i bar hflat hi hcash hp
    have hq0 : 0 ≤ st.cash / bar.Close / 100 := by
      apply div_nonneg _ (by norm_num)
      exact div_nonneg hcash (le_of_lt hp)
    have hpy : pyInt (st.cash / bar.Close / 100) = ⌊st.cash / bar.Close / 100⌋ :=
      pyInt_of_nonneg hq0
    have hi20 : ¬ i < 20 := by omega
    constructor
    · rintro ⟨⟨u, hu, hul⟩, ⟨m, hm, hm0⟩, hsz⟩
      have hcond : (gtNaN (some bar.Close) bar.BBU && gtNaN bar.MACD (some 0)) = true := by
        rw [hu, hm]
        simp [gtNaN, hul, hm0]
      have hfl : 0 < ⌊st.cash / bar.Close / 100⌋ := by omega
      simp [stepBar, hi20, hflat, hcond, hpy, hfl]
    · intro hno
      rcases hno with hno | hsz
      · have hcond : (gtNaN (some bar.Close) bar.BBU && gtNaN bar.MACD (some 0)) = false := by
          cases hb : (gtNaN (some bar.Close) bar.BBU && gtNaN bar.MACD (some 0))
          · rfl
          · exfalso
            apply hno
            rw [Bool.and_eq_true] at hb
            exact ⟨(gtNaN_some_iff bar.Close bar.BBU).mp hb.1,
                   (gtNaN_zero_iff bar.MACD).mp hb.2⟩
        simp [stepBar, holdStep, hi20, hflat, hcond]
      · have hf0 : ⌊st.cash / bar.Close / 100⌋ = 0 := by omega
        simp [stepBar, holdStep, hi20, hflat, hpy, hf0]
  · norm_num [run_strategy_backtest, runFrom, stepBar, holdStep, initState, gtNaN, ltNaN,
      pyInt, commission_rate, List.replicate]
  · norm_num [run_strategy_backtest, runFrom, stepBar, holdStep, initState, gtNaN, ltNaN,
      pyInt, commission_rate, List.replicate]

/-- Witness for claim C5's theorem: the transition rule instantiated at the
scenario's bar 21 (close 110, upper 108, MACD 1/2, cash 100000, FLAT). -/
theorem flat_to_long_transition_rule_witness :
    (stepBar ⟨100000, 0, [], [], [], []⟩ 21
        ⟨21, 110, some 108, some 100, some (1 / 2)⟩).position = 900 ∧
    (stepBar ⟨100000, 0, [], [], [], []⟩ 21
        ⟨21, 110, some 108, some 100, some (1 / 2)⟩).trade_log =
      [⟨21, TradeAction.Buy, 110, 900⟩] := by
  have h := (flat_to_long_transition_rule.1 ⟨100000, 0, [], [], [], []⟩ 21
      ⟨21, 110, some 108, some 100, some (1 / 2)⟩ rfl (by norm_num) (by norm_num)
      (by norm_num)).1
      ⟨⟨108, rfl, by norm_num⟩, ⟨1 / 2, rfl, by norm_num⟩, by norm_num⟩
  refine ⟨?_, ?_⟩
  · rw [h.1]
    norm_num
  · rw [h.2.2]
    norm_num
